import Mathlib

/-!
Shallow embedding of the http-dynamix path-builder core, verified against the
repository specification.

Embedded modules:
* `src/http_dynamix/enums.py` — `SegmentFormat`
* `src/http_dynamix/core/segment_format.py` — `PathSegment`, `SegmentFormatter`
* `src/http_dynamix/clients/sync_client.py` — `SyncDynamicClient`
* `src/http_dynamix/clients/async_client.py` — `AsyncDynamicClient`
* `src/http_dynamix/httpx_logger.py` — header sanitizing, `TextFormatter`
* `src/http_dynamix/auth.py` — `create_auth`, `prepare_auth`

Python string primitives are modelled explicitly for the ASCII inputs the
library manipulates (path identifiers, header names, case transforms).
-/

namespace HttpDynamix

/-- Python `str.lower()` (ASCII range, as used on path identifiers). -/
def pyLower (s : String) : String :=
  String.mk (s.data.map Char.toLower)

/-- Python `str.upper()` (ASCII range). -/
def pyUpper (s : String) : String :=
  String.mk (s.data.map Char.toUpper)

/-- Python `str.capitalize()`: first character uppercased, the rest lowercased. -/
def pyCapitalize (s : String) : String :=
  match s.data with
  | [] => ""
  | c :: cs => String.mk (Char.toUpper c :: cs.map Char.toLower)

/-- Python `str.replace(old, new)` where `old` is a single character, the only
shape used by the source (`"_"→"-"`, `"_"→""`, `"_"→"_"`, `"-"→"_"`). -/
def pyReplaceChar (s : String) (c : Char) (r : String) : String :=
  String.join (s.data.map (fun ch => if ch = c then r else String.singleton ch))

/-- Helper for Python `str.split(sep)` on a single-character separator:
splits a character list, keeping empty groups, `[] ↦ [""]`. -/
def splitCharsAux (sep : Char) : List Char → List (List Char)
  | [] => [[]]
  | c :: rest =>
    let r := splitCharsAux sep rest
    if c = sep then [] :: r
    else
      match r with
      | [] => [[c]]
      | g :: gs => (c :: g) :: gs

/-- Python `str.split(sep)` for a single-character `sep`
(e.g. `"".split("_") = [""]`, `"a__b".split("_") = ["a", "", "b"]`). -/
def pySplitOnChar (s : String) (sep : Char) : List String :=
  (splitCharsAux sep s.data).map String.mk

/-- Model of `SegmentFormat` from `enums.py`: closed enumeration of case conventions. -/
inductive SegmentFormat
  | camel
  | flat
  | kebab
  | pascal
  | screaming_snake
  | snake
  deriving DecidableEq, Repr

/-- Source alias `SegmentFormat.DEFAULT = KEBAB` in `enums.py`. -/
def SegmentFormat.DEFAULT : SegmentFormat := .kebab

/-- A segment value as accepted by `__getitem__`: Python `str | int`. -/
inductive SegValue
  | str (s : String)
  | int (n : Int)
  deriving DecidableEq, Repr

/-- Python `str(value)` on a segment value. -/
def SegValue.render : SegValue → String
  | .str s => s
  | .int n => toString n

/-- Model of `PathSegment` from `core/segment_format.py`. -/
structure PathSegment where
  name : String
  format : SegmentFormat := .DEFAULT
  value : Option SegValue := none
  deriving DecidableEq, Repr

/-- Source method `PathSegment.with_format`: new segment with a different format,
keeping name and value. -/
def PathSegment.with_format (self : PathSegment) (format : SegmentFormat) : PathSegment :=
  { name := self.name, format := format, value := self.value }

/-- Source `SegmentFormatter.camel_case`: split on `_`, first token unchanged,
remaining tokens capitalized, concatenated. -/
def camel_case (segment : String) : String :=
  match pySplitOnChar segment '_' with
  | [] => ""
  | s :: rest => s ++ String.join (rest.map pyCapitalize)

/-- Source `SegmentFormatter.flat_case`: `segment.replace("_", "").lower()`. -/
def flat_case (segment : String) : String :=
  pyLower (pyReplaceChar segment '_' "")

/-- Source `SegmentFormatter.kebab_case`: `segment.replace("_", "-").lower()`. -/
def kebab_case (segment : String) : String :=
  pyLower (pyReplaceChar segment '_' "-")

/-- Source `SegmentFormatter.pascal_case`: split on `_`, capitalize every token,
concatenate. -/
def pascal_case (segment : String) : String :=
  String.join ((pySplitOnChar segment '_').map pyCapitalize)

/-- Source `SegmentFormatter.screaming_snake_case`: `segment.replace("_", "_").upper()`. -/
def screaming_snake_case (segment : String) : String :=
  pyUpper (pyReplaceChar segment '_' "_")

/-- Source `SegmentFormatter.snake_case`: `segment.replace("-", "_").lower()`. -/
def snake_case (segment : String) : String :=
  pyLower (pyReplaceChar segment '-' "_")

/-- Exact-match lookup in the `known_paths` override table
(Python `segment in self.known_paths` / `self.known_paths[segment]`). -/
def lookupKnown : List (String × String) → String → Option String
  | [], _ => none
  | (k, v) :: rest, s => if k = s then some v else lookupKnown rest s

/-- Model of the `SegmentFormatter` dataclass from `core/segment_format.py`. -/
structure SegmentFormatter where
  segment_format : SegmentFormat := .DEFAULT
  known_paths : List (String × String) := []

/-- Source method `SegmentFormatter.transform`: override-table lookup first, else the
case transform selected by `segment_format`. -/
def SegmentFormatter.transform (self : SegmentFormatter) (segment : String) : String :=
  match lookupKnown self.known_paths segment with
  | some v => v
  | none =>
    match self.segment_format with
    | .camel => camel_case segment
    | .flat => flat_case segment
    | .kebab => kebab_case segment
    | .pascal => pascal_case segment
    | .screaming_snake => screaming_snake_case segment
    | .snake => snake_case segment

/-- Key accepted by `__getitem__`: Python `str | int | SegmentFormat`. -/
inductive Key
  | str (s : String)
  | int (n : Int)
  | fmt (f : SegmentFormat)
  deriving DecidableEq, Repr

/-- Returns `true` when the key is a literal value (string or integer), not a
`SegmentFormat`. -/
def Key.isLiteral : Key → Bool
  | .str _ => true
  | .int _ => true
  | .fmt _ => false

/-- Python `str(key)` for a literal key. -/
def Key.render : Key → String
  | .str s => s
  | .int n => toString n
  | .fmt _ => ""

/-- Model of the `SyncDynamicClient` dataclass from `clients/sync_client.py`. The `client` field
(base URL and transport handle) carries no path state and is omitted. -/
structure SyncDynamicClient where
  segments : List PathSegment := []
  segment_format : SegmentFormat := .DEFAULT
  known_paths : List (String × String) := []
  deriving DecidableEq, Repr

/-- Rendering of one segment as performed inside
`SyncDynamicClient._transform_path`: `str(segment.value)` when a value is
set, else `SegmentFormatter(self.segment_format, self.known_paths)
.transform(segment.name)`. Note the formatter is built from the builder's
`segment_format`, not from the segment's own `format` field. -/
def renderSegment (fmt : SegmentFormat) (known : List (String × String))
    (segment : PathSegment) : String :=
  match segment.value with
  | some v => v.render
  | none => SegmentFormatter.transform { segment_format := fmt, known_paths := known } segment.name

/-- Source method `SyncDynamicClient._transform_path`: render each segment in order and
join with `/`. -/
def SyncDynamicClient.transform_path (self : SyncDynamicClient) : String :=
  String.intercalate "/"
    (self.segments.map (renderSegment self.segment_format self.known_paths))

/-- Source method `SyncDynamicClient.__getattr__`: append
`PathSegment(name=name, format=self.segment_format)` and return a new
builder with the same default format and overrides. -/
def SyncDynamicClient.getattr (self : SyncDynamicClient) (name : String) : SyncDynamicClient :=
  { segments := self.segments ++ [{ name := name, format := self.segment_format }]
    segment_format := self.segment_format
    known_paths := self.known_paths }

/-- Source method `SyncDynamicClient.__getitem__`: raises `ValueError` on an empty segment
list; a `SegmentFormat` key replaces the last segment's format, any other
key becomes the last segment's value. -/
def SyncDynamicClient.getitem (self : SyncDynamicClient) (key : Key) :
    Except String SyncDynamicClient :=
  match self.segments.getLast? with
  | none => .error "Cannot use [] operator without a path segment"
  | some last_segment =>
    let new_segments :=
      match key with
      | .fmt f => self.segments.dropLast ++ [last_segment.with_format f]
      | .str s =>
        self.segments.dropLast ++
          [{ name := last_segment.name, format := last_segment.format,
             value := some (.str s) }]
      | .int n =>
        self.segments.dropLast ++
          [{ name := last_segment.name, format := last_segment.format,
             value := some (.int n) }]
    .ok { segments := new_segments
          segment_format := self.segment_format
          known_paths := self.known_paths }

/-- Source method `SyncDynamicClient.with_format`: same segments and overrides,
new default format. -/
def SyncDynamicClient.with_format (self : SyncDynamicClient) (format : SegmentFormat) :
    SyncDynamicClient :=
  { segments := self.segments
    segment_format := format
    known_paths := self.known_paths }

/-- Model of the `AsyncDynamicClient` dataclass from `clients/async_client.py` (same dataclass
fields as the sync variant; `client` again omitted). -/
structure AsyncDynamicClient where
  segments : List PathSegment := []
  segment_format : SegmentFormat := .DEFAULT
  known_paths : List (String × String) := []
  deriving DecidableEq, Repr

/-- Source method `AsyncDynamicClient.__getitem__` — textually identical logic to the
sync variant's. -/
def AsyncDynamicClient.getitem (self : AsyncDynamicClient) (key : Key) :
    Except String AsyncDynamicClient :=
  match self.segments.getLast? with
  | none => .error "Cannot use [] operator without a path segment"
  | some last_segment =>
    let new_segments :=
      match key with
      | .fmt f => self.segments.dropLast ++ [last_segment.with_format f]
      | .str s =>
        self.segments.dropLast ++
          [{ name := last_segment.name, format := last_segment.format,
             value := some (.str s) }]
      | .int n =>
        self.segments.dropLast ++
          [{ name := last_segment.name, format := last_segment.format,
             value := some (.int n) }]
    .ok { segments := new_segments
          segment_format := self.segment_format
          known_paths := self.known_paths }

/-- Helper: whether `pat` occurs at the head of the character list
(Python substring match at the current scan position). -/
def startsWithChars : List Char → List Char → Bool
  | [], _ => true
  | _ :: _, [] => false
  | p :: ps, c :: cs => p = c && startsWithChars ps cs

/-- Fuel-indexed scan for Python `str.replace` with a non-empty pattern:
at each position, a match is replaced and the scan resumes after it,
otherwise one character is copied. Fuel is the length of the scanned list,
so it never runs out for a non-empty pattern. -/
def pyReplaceAux (pat rep : List Char) : Nat → List Char → List Char
  | _, [] => []
  | 0, l => l
  | fuel + 1, c :: cs =>
    if startsWithChars pat (c :: cs) then
      rep ++ pyReplaceAux pat rep fuel ((c :: cs).drop pat.length)
    else c :: pyReplaceAux pat rep fuel cs

/-- Python `str.replace(old, new)` for arbitrary patterns, as used by
`HttpResponseLogger.__sanitize_sensitive_parts`. An empty pattern inserts
`new` at every character boundary, as in Python. -/
def pyReplace (s pat rep : String) : String :=
  match pat.data with
  | [] => rep ++ String.join (s.data.map (fun c => String.singleton c ++ rep))
  | _ :: _ => String.mk (pyReplaceAux pat.data rep.data s.data.length s.data)

/-- Default `sensitive_headers` of `HttpResponseLogger` (a Python `set`,
modelled as a list; iteration order is irrelevant to the claims). -/
def defaultSensitiveHeaders : List String :=
  ["authorization", "cookie", "set-cookie", "x-api-key", "api-key",
   "access-token", "refresh-token"]

/-- Source method `HttpResponseLogger.__sanitize_sensitive_parts`: for each
entry of `hidden_parts`, replace its occurrences inside `message` with the
mask `"**********"`. -/
def sanitize_sensitive_parts (message : String) (hidden_parts : List String) : String :=
  if hidden_parts.isEmpty then message
  else hidden_parts.foldl (fun m part => pyReplace m part "**********") message

/-- Source method `HttpResponseLogger._format_headers`: map the sanitizer
over every header value, keeping header names. -/
def format_headers (sensitive_headers : List String)
    (headers : List (String × String)) : List (String × String) :=
  headers.map (fun kv => (kv.1, sanitize_sensitive_parts kv.2 sensitive_headers))

/-- Source method `TextFormatter.format` on already-decoded text content:
`if max_length and len(content) > max_length` truncate and append the
marker, else return the content unchanged. The source field `max_length`
is `int | None`; Python truthiness makes `None` and `0` skip truncation. -/
def TextFormatter.format (content : String) (max_length : Option Nat) : String :=
  match max_length with
  | none => content
  | some m =>
    if m ≠ 0 ∧ content.length > m then
      String.mk (content.data.take m) ++ "... [truncated]"
    else content

/-- Auth methods produced by `auth.py`: `BearerAuth`, `ApiKeyAuth`, and
`httpx.BasicAuth`. -/
inductive AuthMethod
  | bearer (token : String) (auth_header : String)
  | api_key (key : String) (header_name : String)
  | basic (username : String) (password : String)
  deriving DecidableEq, Repr

/-- Python truthiness of an optional string credential: `None` and the
empty string are falsy. -/
def truthyStr : Option String → Bool
  | none => false
  | some s => !s.isEmpty

/-- Source function `create_auth`: returns `None` when no credential is
truthy; otherwise collects Bearer (if `token`), ApiKey (if `api_key`) and
Basic (if `username and password`) methods, returning `None` when the
collected list is empty. -/
def create_auth (token api_key username password : Option String)
    (auth_header api_key_header : String) : Option (List AuthMethod) :=
  if !(truthyStr token || truthyStr api_key || truthyStr username || truthyStr password) then
    none
  else
    let auth_methods : List AuthMethod :=
      (if truthyStr token then [.bearer (token.getD "") auth_header] else [])
      ++ (if truthyStr api_key then [.api_key (api_key.getD "") api_key_header] else [])
      ++ (if truthyStr username && truthyStr password then
            [.basic (username.getD "") (password.getD "")] else [])
    if auth_methods.isEmpty then none else some auth_methods

/-- Source function `prepare_auth`: filters the keyword arguments down to
the auth-related keys (`AUTH_KEYS`) and forwards them to `create_auth`; in
the typed model the filtering is the identity on the six credentials. -/
def prepare_auth (token api_key username password : Option String)
    (auth_header api_key_header : String) : Option (List AuthMethod) :=
  create_auth token api_key username password auth_header api_key_header

/-- C2 counterexample: on the one-segment builder for `foo_bar` under default
kebab, applying the index key `SegmentFormat.SNAKE` does update the last
segment's format field, but resolving still yields the kebab rendering
`"foo-bar"`, not the snake rendering `"foo_bar"`. -/
theorem C2_counterexample :
    SyncDynamicClient.getitem
        { segments := [{ name := "foo_bar", format := .kebab, value := none }],
          segment_format := .kebab, known_paths := [] } (.fmt .snake)
      = .ok { segments := [{ name := "foo_bar", format := .snake, value := none }],
              segment_format := .kebab, known_paths := [] }
    ∧ SyncDynamicClient.transform_path
        { segments := [{ name := "foo_bar", format := .snake, value := none }],
          segment_format := .kebab, known_paths := [] } = "foo-bar"
    ∧ snake_case "foo_bar" = "foo_bar"
    ∧ ("foo-bar" : String) ≠ "foo_bar" := by
  refine ⟨rfl, by decide, by decide, by decide⟩

/-- C2 (amended): index access with a case-format key `f` on a builder whose
last segment carries no value returns a builder in which the last segment's
format field equals `f` with name and value kept, but resolving is unchanged:
rendering uses the builder's default format, so the format-field update has no
effect on the resolved path. -/
theorem C2_amended_format_key (b : SyncDynamicClient) (last_segment : PathSegment)
    (f : SegmentFormat) (h : b.segments.getLast? = some last_segment)
    (_hv : last_segment.value = none) :
    ∃ b2, b.getitem (.fmt f) = .ok b2
      ∧ b2.segments = b.segments.dropLast
          ++ [{ name := last_segment.name, format := f, value := last_segment.value }]
      ∧ b2.transform_path = b.transform_path := by
  have hmem : last_segment ∈ b.segments.getLast? := h
  have hsplit := List.dropLast_append_getLast? last_segment hmem
  refine ⟨{ segments := b.segments.dropLast
              ++ [{ name := last_segment.name, format := f, value := last_segment.value }],
            segment_format := b.segment_format,
            known_paths := b.known_paths }, ?_, rfl, ?_⟩
  · simp [SyncDynamicClient.getitem, h, PathSegment.with_format]
  · simp only [SyncDynamicClient.transform_path]
    conv_rhs => rw [← hsplit]
    simp only [List.map_append]
    rfl

/-- Witness for C2 (amended) on the one-segment `foo_bar` kebab builder. -/
theorem C2_amended_format_key_witness :
    ∃ b2, SyncDynamicClient.getitem
        { segments := [{ name := "foo_bar", format := .kebab, value := none }],
          segment_format := .kebab, known_paths := [] } (.fmt .snake) = .ok b2
      ∧ b2.segments = ([{ name := "foo_bar", format := .kebab, value := none }]
            : List PathSegment).dropLast
          ++ [{ name := "foo_bar", format := .snake, value := none }]
      ∧ b2.transform_path = SyncDynamicClient.transform_path
          { segments := [{ name := "foo_bar", format := .kebab, value := none }],
            segment_format := .kebab, known_paths := [] } :=
  C2_amended_format_key
    { segments := [{ name := "foo_bar", format := .kebab, value := none }],
      segment_format := .kebab, known_paths := [] }
    { name := "foo_bar", format := .kebab, value := none } .snake rfl rfl

/-- C3 counterexample: with_format retroactively changes the rendering of an
already-added unvalued segment: the `foo_bar` kebab builder resolves to
`"foo-bar"`, but after `with_format snake` it resolves to `"foo_bar"`. -/
theorem C3_counterexample :
    SyncDynamicClient.transform_path
        (SyncDynamicClient.with_format
          { segments := [{ name := "foo_bar", format := .kebab, value := none }],
            segment_format := .kebab, known_paths := [] } .snake) = "foo_bar"
    ∧ SyncDynamicClient.transform_path
        { segments := [{ name := "foo_bar", format := .kebab, value := none }],
          segment_format := .kebab, known_paths := [] } = "foo-bar"
    ∧ ("foo_bar" : String) ≠ "foo-bar" := by
  refine ⟨by decide, by decide, by decide⟩

/-- C3 (amended): with_format returns a builder with the same segments and the
new default format; on resolve every unvalued segment — including those already
present — renders under the new default, while valued segments are unaffected,
so a builder whose segments all carry values resolves identically. -/
theorem C3_amended_with_format (b : SyncDynamicClient) (F : SegmentFormat) :
    (b.with_format F).segments = b.segments
    ∧ (b.with_format F).transform_path
        = String.intercalate "/" (b.segments.map (renderSegment F b.known_paths))
    ∧ ((∀ s ∈ b.segments, s.value.isSome) →
        (b.with_format F).transform_path = b.transform_path) := by
  refine ⟨rfl, rfl, ?_⟩
  intro hall
  simp only [SyncDynamicClient.with_format, SyncDynamicClient.transform_path]
  congr 1
  apply List.map_congr_left
  intro s hs
  obtain ⟨v, hv⟩ := Option.isSome_iff_exists.mp (hall s hs)
  simp [renderSegment, hv]

/-- Witness for C3 (amended) on a builder whose single segment is valued. -/
theorem C3_amended_with_format_witness :
    (SyncDynamicClient.with_format
        { segments := [{ name := "users", format := .kebab, value := some (.str "john") }],
          segment_format := .kebab, known_paths := [] } .snake).transform_path
      = SyncDynamicClient.transform_path
          { segments := [{ name := "users", format := .kebab, value := some (.str "john") }],
            segment_format := .kebab, known_paths := [] } :=
  (C3_amended_with_format _ .snake).2.2 (by decide)


/-- C8 (code evaluation): the header sanitizer replaces occurrences of the
sensitive header names inside header values; a secret value that does not
contain a sensitive name — here the value of the authorization header —
is logged verbatim and is not replaced by the mask. -/
theorem C8_sensitive_value_not_masked :
    format_headers defaultSensitiveHeaders [("authorization", "secret-token-123")]
      = [("authorization", "secret-token-123")]
    ∧ sanitize_sensitive_parts "secret-token-123" defaultSensitiveHeaders
      = "secret-token-123"
    ∧ ("secret-token-123" : String) ≠ "**********" := by
  refine ⟨by decide, by decide, by decide⟩

/-- C9: for text content and a positive configured maximum length, the text
formatter truncates to the prefix of that length followed by the marker when
the content is strictly longer, and returns content of length zero or exactly
the maximum unchanged; the embedded operation is total. -/
theorem C9_text_truncation_boundaries (content : String) (m : Nat) (hm : 0 < m) :
    (content.length > m →
      TextFormatter.format content (some m)
        = String.mk (content.data.take m) ++ "... [truncated]")
    ∧ ((content.length = 0 ∨ content.length = m) →
      TextFormatter.format content (some m) = content) := by
  constructor
  · intro hlen
    simp only [TextFormatter.format]
    rw [if_pos ⟨hm.ne', hlen⟩]
  · intro hlen
    have hng : ¬(m ≠ 0 ∧ content.length > m) := by
      rintro ⟨-, hgt⟩
      rcases hlen with h0 | hm2 <;> omega
    simp only [TextFormatter.format]
    rw [if_neg hng]

/-- Witness for C9: a 4-character body with maximum 3 is truncated with the
marker; the empty body is returned unchanged. -/
theorem C9_text_truncation_boundaries_witness :
    TextFormatter.format "abcd" (some 3)
      = String.mk ("abcd".data.take 3) ++ "... [truncated]"
    ∧ TextFormatter.format "" (some 3) = "" :=
  ⟨(C9_text_truncation_boundaries "abcd" 3 (by decide)).1 (by decide),
   (C9_text_truncation_boundaries "" 3 (by decide)).2 (Or.inl rfl)⟩

/-- C10: create_auth returns Some exactly when a bearer token is truthy, or an
api_key is truthy, or both username and password are truthy; a Basic method
appears in the produced list only when both username and password are truthy;
and prepare_auth agrees with create_auth. -/
theorem C10_create_auth_iff (token api_key username password : Option String)
    (auth_header api_key_header : String) :
    ((create_auth token api_key username password auth_header api_key_header).isSome
      = (truthyStr token || truthyStr api_key
          || (truthyStr username && truthyStr password)))
    ∧ (∀ ms, create_auth token api_key username password auth_header api_key_header
          = some ms →
        ∀ u p, AuthMethod.basic u p ∈ ms →
          truthyStr username = true ∧ truthyStr password = true)
    ∧ prepare_auth token api_key username password auth_header api_key_header
        = create_auth token api_key username password auth_header api_key_header := by
  refine ⟨?_, ?_, rfl⟩
  · simp only [create_auth]
    cases ht : truthyStr token <;> cases ha : truthyStr api_key <;>
      cases hu : truthyStr username <;> cases hp : truthyStr password <;>
      simp
  · intro ms hms u p hmem
    simp only [create_auth] at hms
    cases ht : truthyStr token <;> cases ha : truthyStr api_key <;>
      cases hu : truthyStr username <;> cases hp : truthyStr password <;>
      simp [ht, ha, hu, hp] at hms <;>
      first
        | exact ⟨rfl, rfl⟩
        | exact ⟨hu, hp⟩
        | (subst hms; simp at hmem)


/-- Witness for C10: with only a username and password supplied, create_auth
returns the Basic method and the credentials are truthy. -/
theorem C10_create_auth_iff_witness :
    truthyStr (some "u") = true ∧ truthyStr (some "p") = true :=
  (C10_create_auth_iff none none (some "u") (some "p")
      "Authorization" "X-API-Key").2.1
    [AuthMethod.basic "u" "p"] (by decide) "u" "p" (by decide)

end HttpDynamix

namespace HttpDynamix

/-- Accumulated effect of a chain of `__getattr__` extensions: segments are
appended in order, each tagged with the builder's default format, and the
default format and overrides are unchanged. -/
theorem foldl_getattr_eq (names : List String) (b : SyncDynamicClient) :
    names.foldl SyncDynamicClient.getattr b =
      { segments := b.segments ++ names.map (fun n =>
          { name := n, format := b.segment_format, value := none }),
        segment_format := b.segment_format,
        known_paths := b.known_paths } := by
  induction names generalizing b with
  | nil => simp
  | cons n ns ih =>
    rw [List.foldl_cons, ih]
    simp [SyncDynamicClient.getattr]

/-- C1: for every non-empty sequence of attribute-name extensions on a builder
with default case-format `F` and an empty override table, resolving yields the
formatted names joined with `/`, in insertion order. -/
theorem C1_attr_chain_resolve (F : SegmentFormat) (names : List String)
    (_hn : names ≠ []) :
    (names.foldl SyncDynamicClient.getattr
        { segments := [], segment_format := F, known_paths := [] }).transform_path
      = String.intercalate "/"
          (names.map (SegmentFormatter.transform
            { segment_format := F, known_paths := [] })) := by
  rw [foldl_getattr_eq]
  simp only [SyncDynamicClient.transform_path, List.nil_append, List.map_map]
  congr 1

/-- Witness for C1 at the chain `users` then `foo_bar` under kebab. -/
theorem C1_attr_chain_resolve_witness :
    (["users", "foo_bar"].foldl SyncDynamicClient.getattr
        { segments := [], segment_format := .kebab, known_paths := [] }).transform_path
      = String.intercalate "/"
          (["users", "foo_bar"].map (SegmentFormatter.transform
            { segment_format := .kebab, known_paths := [] })) :=
  C1_attr_chain_resolve .kebab ["users", "foo_bar"] (by decide)

/-- C4: index access with a literal string or integer key on a builder with at
least one segment yields a builder whose last segment renders as the Python
`str` of the key upon resolve, independent of the segment name, its format
field, the builder default format, and the override table; earlier segments
are unaffected. -/
theorem C4_literal_value_wins (b : SyncDynamicClient) (last_segment : PathSegment)
    (h : b.segments.getLast? = some last_segment) (k : Key)
    (hk : k.isLiteral = true) :
    ∃ b2, b.getitem k = .ok b2
      ∧ b2.transform_path
          = String.intercalate "/"
              (b.segments.dropLast.map (renderSegment b.segment_format b.known_paths)
                ++ [k.render]) := by
  cases k with
  | fmt f => simp [Key.isLiteral] at hk
  | str s =>
    refine ⟨{ segments := b.segments.dropLast
                ++ [{ name := last_segment.name, format := last_segment.format,
                      value := some (.str s) }],
              segment_format := b.segment_format,
              known_paths := b.known_paths }, ?_, ?_⟩
    · simp [SyncDynamicClient.getitem, h]
    · simp [SyncDynamicClient.transform_path, List.map_append, renderSegment,
        SegValue.render, Key.render]
  | int n =>
    refine ⟨{ segments := b.segments.dropLast
                ++ [{ name := last_segment.name, format := last_segment.format,
                      value := some (.int n) }],
              segment_format := b.segment_format,
              known_paths := b.known_paths }, ?_, ?_⟩
    · simp [SyncDynamicClient.getitem, h]
    · simp [SyncDynamicClient.transform_path, List.map_append, renderSegment,
        SegValue.render, Key.render]

/-- Witness for C4 with the integer key 0 on a builder whose segment name has
an override entry: the rendered last segment is the string "0". -/
theorem C4_literal_value_wins_witness :
    ∃ b2, SyncDynamicClient.getitem
        { segments := [{ name := "users", format := .kebab, value := none }],
          segment_format := .camel, known_paths := [("users", "USERS")] } (.int 0)
        = .ok b2
      ∧ b2.transform_path
          = String.intercalate "/"
              (([{ name := "users", format := .kebab, value := none }]
                  : List PathSegment).dropLast.map
                  (renderSegment .camel [("users", "USERS")])
                ++ [Key.render (.int 0)]) :=
  C4_literal_value_wins
    { segments := [{ name := "users", format := .kebab, value := none }],
      segment_format := .camel, known_paths := [("users", "USERS")] }
    { name := "users", format := .kebab, value := none } rfl (.int 0) rfl

/-- C5: when a segment name is a key of the override table, the formatter's
transform returns the mapped value unchanged, for any two configured
case-formats — the lookup short-circuits before any case transform. -/
theorem C5_override_short_circuit (F F2 : SegmentFormat)
    (known : List (String × String)) (name v : String)
    (h : lookupKnown known name = some v) :
    SegmentFormatter.transform { segment_format := F, known_paths := known } name = v
    ∧ SegmentFormatter.transform { segment_format := F2, known_paths := known } name = v := by
  constructor <;> simp [SegmentFormatter.transform, h]

/-- Witness for C5 on the table mapping user_id to UID, under camel and snake. -/
theorem C5_override_short_circuit_witness :
    SegmentFormatter.transform
        { segment_format := .camel, known_paths := [("user_id", "UID")] } "user_id" = "UID"
    ∧ SegmentFormatter.transform
        { segment_format := .snake, known_paths := [("user_id", "UID")] } "user_id" = "UID" :=
  C5_override_short_circuit .camel .snake [("user_id", "UID")] "user_id" "UID" rfl

/-- C6: the six case-format transforms satisfy the reference table on
"foo_bar" (resp. "foo-bar" for snake). -/
theorem C6_case_format_table :
    camel_case "foo_bar" = "fooBar"
    ∧ flat_case "foo_bar" = "foobar"
    ∧ kebab_case "foo_bar" = "foo-bar"
    ∧ pascal_case "foo_bar" = "FooBar"
    ∧ screaming_snake_case "foo_bar" = "FOO_BAR"
    ∧ snake_case "foo-bar" = "foo_bar" := by
  refine ⟨by decide, by decide, by decide, by decide, by decide, by decide⟩

/-- C7: for both the sync and the async dynamic client, index access raises
the usage error exactly when the builder has zero segments, for every key. -/
theorem C7_getitem_error_iff_empty (b : SyncDynamicClient) (ab : AsyncDynamicClient)
    (k k2 : Key) :
    (b.getitem k = .error "Cannot use [] operator without a path segment"
      ↔ b.segments = [])
    ∧ (ab.getitem k2 = .error "Cannot use [] operator without a path segment"
      ↔ ab.segments = []) := by
  constructor
  · cases hseg : b.segments.getLast? with
    | none =>
      have hnil : b.segments = [] := List.getLast?_eq_none_iff.mp hseg
      simp [SyncDynamicClient.getitem, hseg, hnil]
    | some last =>
      have hne : b.segments ≠ [] := by
        intro hh
        rw [hh] at hseg
        simp at hseg
      simp [SyncDynamicClient.getitem, hseg, hne]
  · cases hseg : ab.segments.getLast? with
    | none =>
      have hnil : ab.segments = [] := List.getLast?_eq_none_iff.mp hseg
      simp [AsyncDynamicClient.getitem, hseg, hnil]
    | some last =>
      have hne : ab.segments ≠ [] := by
        intro hh
        rw [hh] at hseg
        simp at hseg
      simp [AsyncDynamicClient.getitem, hseg, hne]

end HttpDynamix
